import Mathlib

/-!
Shallow embedding of the DermaFix blemish-removal editor
(`src/App.tsx`, `src/components/UploadZone.tsx` (Editor), `src/utils/imageHelpers.ts`,
the Gemini service) and proofs of the spec's claims about it.

JavaScript strings are modelled as `List Char`; JavaScript numbers used as
ids/coordinates are modelled as `Nat`/`ℚ`; promises that may never settle are
modelled with `Option`.
-/

namespace DermaFix

/-- A JavaScript string, modelled as its list of characters. -/
abbrev JSString := List Char

/-! ## String helpers (`src/utils/imageHelpers.ts`) -/

/-- JavaScript `String.prototype.indexOf` for a single character:
first index of `c` in `s`, or `-1` when absent. -/
def jsIndexOf (s : JSString) (c : Char) : Int :=
  match s with
  | [] => -1
  | a :: rest =>
    if a == c then 0
    else
      let r := jsIndexOf rest c
      if r < 0 then -1 else r + 1

/-- JavaScript `String.prototype.substring start end`: both indices are clamped
to `[0, length]` and swapped when out of order. -/
def jsSubstring (s : JSString) (a b : Int) : JSString :=
  let a' := (min (max a 0) (s.length : Int)).toNat
  let b' := (min (max b 0) (s.length : Int)).toNat
  (s.take (max a' b')).drop (min a' b')

/-- JavaScript `String.prototype.split` on a one-character separator. -/
def jsSplit (s : JSString) (sep : Char) : List JSString :=
  match s with
  | [] => [[]]
  | c :: rest =>
    let r := jsSplit rest sep
    if c == sep then [] :: r
    else
      match r with
      | [] => [[c]]
      | h :: t => (c :: h) :: t

/-- `getMimeType` (imageHelpers.ts): the slice between the first `:`
(exclusive) and the first `;` (exclusive) of a data URL. -/
def getMimeType (dataUrl : JSString) : JSString :=
  jsSubstring dataUrl (jsIndexOf dataUrl ':' + 1) (jsIndexOf dataUrl ';')

/-- `getBase64Data` (imageHelpers.ts): `dataUrl.split(',')[1]`.  Index `1` of a
JavaScript array is `undefined` when the array is shorter, hence the `Option`. -/
def getBase64Data (dataUrl : JSString) : Option JSString :=
  (jsSplit dataUrl ',').get? 1

/-- The data-URL construction `data:${mimeType};base64,${data}` used in
`handleProcessImage` (App.tsx). -/
def mkDataUrl (mime data : JSString) : JSString :=
  "data:".data ++ mime ++ ";base64,".data ++ data

/-- Characters that can occur in a base64 payload. -/
def isBase64Char (c : Char) : Bool :=
  c.isAlphanum || c == '+' || c == '/' || c == '='

/-! ## Editor data model (`src/components/UploadZone.tsx`, Editor component) -/

/-- `retouchMode : 'auto' | 'manual'`. -/
inductive RetouchMode
  | auto
  | manual
deriving DecidableEq

/-- `viewMode : 'split' | 'hold'`. -/
inductive ViewMode
  | split
  | hold
deriving DecidableEq

/-- One user-placed mask region (`interface Spot`): `x`, `y` are percentages
(0–100) of the displayed width/height, `radius` a percentage of width. -/
structure Spot where
  id : JSString
  x : ℚ
  y : ℚ
  radius : ℚ
deriving DecidableEq

/-- The Editor's blend-relevant state (the `useState` fields of `Editor` that the
renderers read; `hasProcessed` records whether `processedImage` is non-null). -/
structure EditorState where
  intensity : ℚ
  viewMode : ViewMode
  retouchMode : RetouchMode
  spots : List Spot
  sliderPosition : ℚ
  brushSize : ℚ
  aspectRatio : ℚ
  hasProcessed : Bool

/-! ## Blend mode state machine

The only writes to `retouchMode`/`viewMode` in the Editor are:
the mode buttons (`setRetouchMode('auto'); setViewMode('split')` and
`setRetouchMode('manual'); setViewMode('hold')`, UploadZone.tsx:501/509) and the
compare buttons (`setViewMode('split')` — disabled while
`retouchMode === 'manual'`, line 582 — and `setViewMode('hold')`, always
enabled). -/

/-- Mode-related state: the pair of `retouchMode` and `viewMode`. -/
structure ModeState where
  retouchMode : RetouchMode
  viewMode : ViewMode
deriving DecidableEq

/-- The four UI toggle actions that write `retouchMode`/`viewMode`. -/
inductive ModeAction
  | selectAuto
  | selectManual
  | selectSplit
  | selectHold
deriving DecidableEq

/-- Effect of each toggle.  The Split-Preview button is `disabled` while
`retouchMode === 'manual'`, so `selectSplit` is a no-op there. -/
def modeStep (s : ModeState) : ModeAction → ModeState
  | .selectAuto => ⟨.auto, .split⟩
  | .selectManual => ⟨.manual, .hold⟩
  | .selectSplit => if s.retouchMode = .manual then s else { s with viewMode := .split }
  | .selectHold => { s with viewMode := .hold }

/-- The `useState` defaults: `viewMode = 'split'`, `retouchMode = 'auto'`. -/
def initialModeState : ModeState := ⟨.auto, .split⟩

/-- The coupling invariant: Manual mode forces the Hold view. -/
def modeInv (s : ModeState) : Prop :=
  s.retouchMode = .manual → s.viewMode = .hold

/-! ## Spot store operations -/

/-- `Date.now().toString()`: the decimal string of the clock value. -/
def jsNumToString (n : Nat) : JSString := (Nat.repr n).data

/-- The spot-creation commit inside `handleImageClick`:
`setSpots(prev => [...prev, { id: Date.now().toString(), x, y, radius }])`. -/
def addSpot (spots : List Spot) (now : Nat) (x y radius : ℚ) : List Spot :=
  spots ++ [⟨jsNumToString now, x, y, radius⟩]

/-- `removeSpot`: `setSpots(prev => prev.filter(s => s.id !== id))`. -/
def removeSpot (spots : List Spot) (id : JSString) : List Spot :=
  spots.filter (fun s => s.id != id)

/-- The ids currently in the store. -/
def spotIds (spots : List Spot) : List JSString := spots.map Spot.id

/-- One store operation: a spot-creating click (with the clock value observed by
`Date.now()`) or a removal click. -/
inductive SpotOp
  | add (now : Nat) (x y radius : ℚ)
  | remove (id : JSString)

/-- Apply one store operation. -/
def applySpotOp (spots : List Spot) : SpotOp → List Spot
  | .add now x y r => addSpot spots now x y r
  | .remove id => removeSpot spots id

/-- Apply a sequence of store operations in order. -/
def applySpotOps (spots : List Spot) (ops : List SpotOp) : List Spot :=
  ops.foldl applySpotOp spots

/-- A run is fresh when no add reuses a clock string that is still the id of a
stored spot (`Date.now()` can repeat within a millisecond, so this is a genuine
side condition, not a tautology). -/
def freshRun (spots : List Spot) : List SpotOp → Bool
  | [] => true
  | op :: ops =>
    (match op with
     | .add now _ _ _ => !(spotIds spots).contains (jsNumToString now)
     | .remove _ => true) && freshRun (applySpotOp spots op) ops

/-! ## Live Preview Renderer (`getMaskStyle` and the SVG clip path) -/

/-- The style object `getMaskStyle` returns for the processed `<img>` layer:
an opacity and an optional `clipPath` reference. -/
structure MaskStyle where
  opacity : ℚ
  clipPath : Option JSString
deriving DecidableEq

/-- `getMaskStyle` (UploadZone.tsx:273): auto mode blends at `intensity/100`;
manual mode with zero spots hides the processed layer entirely; manual mode with
spots blends at `intensity/100` through the `#spot-mask` clip path. -/
def getMaskStyle (st : EditorState) : MaskStyle :=
  match st.retouchMode with
  | .auto => ⟨st.intensity / 100, none⟩
  | .manual =>
    if st.spots.length = 0 then ⟨0, none⟩
    else ⟨st.intensity / 100, some "url(#spot-mask)".data⟩

/-- Membership in the SVG preview ellipse of one spot
(`cx = x/100, cy = y/100, rx = radius/100, ry = (radius/100)*aspectRatio` in
`objectBoundingBox` units, UploadZone.tsx:306). -/
def inPreviewEllipse (s : Spot) (ar u v : ℚ) : Bool :=
  decide (((u - s.x / 100) / (s.radius / 100)) ^ 2
    + ((v - s.y / 100) / (s.radius / 100 * ar)) ^ 2 ≤ 1)

/-- The preview clip mask: the union of the spots' ellipses, in
object-bounding-box coordinates `(u, v) `. -/
def previewSpotRegion (spots : List Spot) (ar u v : ℚ) : Bool :=
  spots.any (fun s => inPreviewEllipse s ar u v)

/-! ## Export Compositor (`handleDownload`) -/

/-- A decoded raster image: natural pixel dimensions plus a sampling function
(colour channels abstracted to one rational value per point). -/
structure Img where
  width : Nat
  height : Nat
  sample : ℚ → ℚ → ℚ

/-- Membership in the canvas disc of one spot as drawn by `handleDownload`:
`arc((x/100)*W, (y/100)*H, (radius/100)*W, 0, 2π)` (UploadZone.tsx:247). -/
def inExportSpot (s : Spot) (W H px py : ℚ) : Bool :=
  decide ((px - s.x / 100 * W) ^ 2 + (py - s.y / 100 * H) ^ 2
    ≤ (s.radius / 100 * W) ^ 2)

/-- The export clip region built from the spot arcs: the union of the discs. -/
def exportSpotRegion (spots : List Spot) (W H px py : ℚ) : Bool :=
  spots.any (fun s => inExportSpot s W H px py)

/-- Point membership in a canvas rectangle `rect(x0, y0, w, h)` (a pixel is
painted when its sample point lies inside; a zero-size rectangle covers
nothing). -/
def rectMember (x0 y0 w h px py : ℚ) : Bool :=
  decide (x0 ≤ px ∧ px < x0 + w ∧ y0 ≤ py ∧ py < y0 + h)

/-- The clip `handleDownload` installs before drawing the processed layer:
none in auto mode; in manual mode `rect(0,0,0,0)` when there are no spots,
otherwise the union of the spot discs (UploadZone.tsx:237–256). -/
def exportClip (mode : RetouchMode) (spots : List Spot) (W H px py : ℚ) : Bool :=
  match mode with
  | .auto => true
  | .manual =>
    if spots.length = 0 then rectMember 0 0 0 0 px py
    else exportSpotRegion spots W H px py

/-- Canvas source-over compositing of an opaque layer drawn with
`globalAlpha = alpha` on top of `base`. -/
def mix (base over alpha : ℚ) : ℚ :=
  (1 - alpha) * base + alpha * over

/-- The composite colour at an output pixel: the original is drawn unscaled as
the base; inside the clip the processed image — stretched from its own
dimensions to the canvas dimensions by `drawImage(imgProcessed, 0, 0,
canvas.width, canvas.height)` — is blended at `intensity/100`. -/
def exportPixel (st : EditorState) (orig proc : Img) (px py : ℚ) : ℚ :=
  let W : ℚ := orig.width
  let H : ℚ := orig.height
  if exportClip st.retouchMode st.spots W H px py then
    mix (orig.sample px py)
      (proc.sample (px * proc.width / W) (py * proc.height / H))
      (st.intensity / 100)
  else
    orig.sample px py

/-- What the export composition produces when the `Promise.all` callback runs:
the canvas dimensions (set to the original's natural size), the download file
name and JPEG quality, the destination size the processed image is drawn at,
and the per-pixel composite. -/
structure ExportOutput where
  width : Nat
  height : Nat
  fileName : JSString
  quality : ℚ
  procDrawW : Nat
  procDrawH : Nat
  pix : ℚ → ℚ → ℚ

/-- The externally observable effect of one `handleDownload` invocation: the
file offered for download (if any) and the error message surfaced to the user
(if any). -/
structure ExportEffect where
  output : Option ExportOutput
  userError : Option JSString

/-- `handleDownload` (UploadZone.tsx:204).  It returns immediately when there is
no processed image.  `loadImg` resolves its promise only in `onload` and
installs no `onerror` handler, so when either decode fails the `Promise.all`
never settles: the composition callback never runs, no file is produced, and no
error message is surfaced.  A failed decode is modelled as `none`. -/
def handleDownload (st : EditorState) (odec pdec : Option Img) : ExportEffect :=
  if st.hasProcessed = false then ⟨none, none⟩
  else
    match odec, pdec with
    | some o, some p =>
      ⟨some
        { width := o.width
          height := o.height
          fileName := "dermafix-retouched.jpg".data
          quality := 92 / 100
          procDrawW := o.width
          procDrawH := o.height
          pix := fun px py => exportPixel st o p px py }, none⟩
    | _, _ => ⟨none, none⟩

/-! ## App-level session state and the generative call
(`src/App.tsx`, `services/geminiService.ts`) -/

/-- `inlineData` of a response part; `data` is optional and may be empty. -/
structure InlineData where
  mimeType : JSString
  data : Option JSString

/-- One part of a response candidate's content. -/
structure Part where
  text : Option JSString
  inlineData : Option InlineData

/-- One response candidate (only its content parts matter here). -/
structure Candidate where
  parts : List Part

/-- The shape of a `generateContent` response that `processFaceImage` reads. -/
structure GenResponse where
  candidates : List Candidate

/-- The scan in `processFaceImage` over the first candidate's parts:
`if (part.inlineData && part.inlineData.data) return part.inlineData.data`
(JavaScript truthiness: an empty string does not count). -/
def findInlineImage : List Part → Option JSString
  | [] => none
  | p :: rest =>
    match p.inlineData with
    | some d =>
      match d.data with
      | some s => if s.isEmpty then findInlineImage rest else some s
      | none => findInlineImage rest
    | none => findInlineImage rest

/-- `processFaceImage` (geminiService.ts): a throwing remote call is re-thrown;
a response with no usable inline image data raises
"No image data returned from the model.". -/
def processFaceImage (outcome : Except JSString GenResponse) :
    Except JSString JSString :=
  match outcome with
  | .error e => .error e
  | .ok resp =>
    match resp.candidates with
    | [] => .error "No image data returned from the model.".data
    | c :: _ =>
      match findInlineImage c.parts with
      | some d => .ok d
      | none => .error "No image data returned from the model.".data

/-- The App-level session state (the `useState` fields of `App`). -/
structure AppState where
  originalImage : Option JSString
  processedImage : Option JSString
  isProcessing : Bool
  error : Option JSString

/-- `handleProcessImage` (App.tsx:32): no-op without an original image; on
success stores `data:${mimeType};base64,${data}` built from the original's mime
type; on failure sets the error to `err.message || "Failed to process image
with Gemini AI."`; `finally` clears `isProcessing` on both paths. -/
def handleProcessImage (st : AppState) (outcome : Except JSString GenResponse) :
    AppState :=
  match st.originalImage with
  | none => st
  | some orig =>
    match processFaceImage outcome with
    | .ok data =>
      { st with
        processedImage := some (mkDataUrl (getMimeType orig) data)
        isProcessing := false
        error := none }
    | .error msg =>
      { st with
        error := some (if msg.isEmpty then "Failed to process image with Gemini AI.".data else msg)
        isProcessing := false }

/-! ## Concrete sample values used to instantiate the theorems -/

/-- An Editor state in Manual mode with an empty spot set and a processed
image present. -/
def sampleManualEmptyState : EditorState :=
  { intensity := 60
    viewMode := .hold
    retouchMode := .manual
    spots := []
    sliderPosition := 50
    brushSize := 5 / 2
    aspectRatio := 1
    hasProcessed := true }

/-- An Editor state in Auto mode with no spots. -/
def sampleAutoState : EditorState :=
  { intensity := 60
    viewMode := .split
    retouchMode := .auto
    spots := []
    sliderPosition := 50
    brushSize := 5 / 2
    aspectRatio := 2 / 3
    hasProcessed := true }

/-- A sample decoded image, 2×3 pixels. -/
def sampleImg : Img := ⟨2, 3, fun _ _ => 7⟩

/-- A second sample decoded image with different dimensions, 4×5 pixels. -/
def sampleImg2 : Img := ⟨4, 5, fun px py => px + py⟩

/-- A spot whose id is the clock string of millisecond 5. -/
def spotAtTick5 : Spot := ⟨jsNumToString 5, 50, 50, 2⟩

/-- The single spot of the spec's export scenario: centre (50, 50), radius 10. -/
def scenarioSpot : Spot := ⟨[], 50, 50, 10⟩

/-- An app state holding an original image, mid-processing. -/
def sampleAppState : AppState :=
  { originalImage := some "data:image/png;base64,AAAA".data
    processedImage := none
    isProcessing := true
    error := none }

/-! # Theorems -/

/-- Auxiliary: every toggle action preserves the Manual-implies-Hold
invariant. -/
theorem modeStep_preserves_inv (s : ModeState) (a : ModeAction)
    (h : modeInv s) : modeInv (modeStep s a) := by
  cases a with
  | selectAuto => intro hm; simp [modeStep] at hm
  | selectManual => intro _; rfl
  | selectSplit =>
    by_cases hc : s.retouchMode = .manual
    · simpa [modeStep, hc] using h
    · simp only [modeStep, hc, if_false]
      intro hm
      exact absurd hm hc
  | selectHold => intro _; rfl

/-- C1: selecting Manual forces `viewMode = hold`, selecting Auto forces
`viewMode = split`, and after any sequence of mode/view-mode toggle actions
from the initial state, `retouchMode = manual` implies `viewMode = hold`. -/
theorem c1_mode_view_coupling :
    (∀ s : ModeState,
      (modeStep s .selectManual).retouchMode = .manual
        ∧ (modeStep s .selectManual).viewMode = .hold)
    ∧ (∀ s : ModeState,
      (modeStep s .selectAuto).retouchMode = .auto
        ∧ (modeStep s .selectAuto).viewMode = .split)
    ∧ ∀ acts : List ModeAction, modeInv (acts.foldl modeStep initialModeState) := by
  refine ⟨fun _ => ⟨rfl, rfl⟩, fun _ => ⟨rfl, rfl⟩, ?_⟩
  have general : ∀ (acts : List ModeAction) (s : ModeState),
      modeInv s → modeInv (acts.foldl modeStep s) := by
    intro acts
    induction acts with
    | nil => exact fun s h => h
    | cons a rest ih => exact fun s h => ih _ (modeStep_preserves_inv s a h)
  intro acts
  exact general acts initialModeState (fun h => absurd h (by decide))

/-- C2: in Manual mode with an empty spot set, the preview style derived by
`getMaskStyle` has opacity 0, for every intensity in 0–100. -/
theorem c2_manual_empty_opacity (st : EditorState)
    (h1 : st.retouchMode = .manual) (h2 : st.spots = [])
    (_h3 : 0 ≤ st.intensity) (_h4 : st.intensity ≤ 100) :
    (getMaskStyle st).opacity = 0 := by
  simp [getMaskStyle, h1, h2]

/-- Witness for C2 at a concrete state with intensity 60. -/
theorem c2_manual_empty_opacity_witness :
    (getMaskStyle sampleManualEmptyState).opacity = 0 :=
  c2_manual_empty_opacity sampleManualEmptyState rfl rfl (by decide) (by decide)

/-- C4: when both decodes succeed, the export canvas has exactly the original
image's natural dimensions, and the processed image is drawn stretched to a
destination rectangle whose width and height equal those canvas dimensions. -/
theorem c4_export_dimensions (st : EditorState) (o p : Img)
    (h : st.hasProcessed = true) :
    ((handleDownload st (some o) (some p)).output.map ExportOutput.width)
        = some o.width
    ∧ ((handleDownload st (some o) (some p)).output.map ExportOutput.height)
        = some o.height
    ∧ ((handleDownload st (some o) (some p)).output.map
        (fun out => (out.procDrawW, out.procDrawH)))
        = some (o.width, o.height) := by
  simp [handleDownload, h]

/-- Witness for C4: original 2×3, processed 4×5; the output is 2×3 and the
processed layer's destination rectangle is 2×3 as well. -/
theorem c4_export_dimensions_witness :
    ((handleDownload sampleAutoState (some sampleImg) (some sampleImg2)).output.map
        ExportOutput.width) = some 2
    ∧ ((handleDownload sampleAutoState (some sampleImg) (some sampleImg2)).output.map
        ExportOutput.height) = some 3
    ∧ ((handleDownload sampleAutoState (some sampleImg) (some sampleImg2)).output.map
        (fun out => (out.procDrawW, out.procDrawH))) = some (2, 3) :=
  c4_export_dimensions sampleAutoState sampleImg sampleImg2 rfl

/-- Counterexample to C5 as stated: with a processed image present and the
original image's decode failing, `handleDownload` surfaces no user-visible
error message (its load promise has no `onerror` handler, so the claimed
"aborted with a user-visible error message" is false); no file is produced. -/
theorem c5_decode_failure_counterexample :
    (handleDownload sampleManualEmptyState none (some sampleImg)).userError = none
    ∧ (handleDownload sampleManualEmptyState none (some sampleImg)).output = none :=
  ⟨rfl, rfl⟩

/-- C5 (amended): if either decode fails, the composition callback never runs:
no file is produced and nothing is retried, but no user-visible error message
is shown either. -/
theorem c5_decode_failure_silent (st : EditorState) (odec pdec : Option Img)
    (h : odec = none ∨ pdec = none) :
    (handleDownload st odec pdec).output = none
    ∧ (handleDownload st odec pdec).userError = none := by
  cases hp : st.hasProcessed with
  | false => simp [handleDownload, hp]
  | true =>
    rcases h with h | h
    · subst h
      cases pdec <;> simp [handleDownload, hp]
    · subst h
      cases odec <;> simp [handleDownload, hp]

/-- Witness for C5 (amended) at a concrete failing decode. -/
theorem c5_decode_failure_silent_witness :
    (handleDownload sampleAutoState (some sampleImg) none).output = none
    ∧ (handleDownload sampleAutoState (some sampleImg) none).userError = none :=
  c5_decode_failure_silent sampleAutoState (some sampleImg) none (Or.inr rfl)

/-- C6: in Manual mode with an empty spot set the export clip is the empty
`rect(0,0,0,0)` region, so every composite pixel equals the original image's
pixel: the export is the original alone. -/
theorem c6_manual_empty_export (st : EditorState) (orig proc : Img)
    (h1 : st.retouchMode = .manual) (h2 : st.spots = []) (px py : ℚ) :
    exportPixel st orig proc px py = orig.sample px py := by
  have hrect : rectMember 0 0 0 0 px py = false := by
    simp only [rectMember, decide_eq_false_iff_not]
    rintro ⟨h3, h4, -, -⟩
    linarith
  have hclip : exportClip st.retouchMode st.spots orig.width orig.height px py
      = false := by
    rw [h1, h2]
    simpa [exportClip] using hrect
  simp [exportPixel, hclip]

/-- Witness for C6 at a concrete state, images and pixel. -/
theorem c6_manual_empty_export_witness :
    exportPixel sampleManualEmptyState sampleImg sampleImg2 (1/2) (1/3)
      = sampleImg.sample (1/2) (1/3) :=
  c6_manual_empty_export sampleManualEmptyState sampleImg sampleImg2 rfl rfl
    (1/2) (1/3)

/-- C9: when the generative call fails (it throws, or its response carries no
image data), `handleProcessImage` surfaces an error message, leaves
`processedImage` null, resets `isProcessing`, and retains the original image. -/
theorem c9_failure_preserves_session (st : AppState) (orig : JSString)
    (outcome : Except JSString GenResponse) (m : JSString)
    (h1 : st.originalImage = some orig) (h2 : st.processedImage = none)
    (h3 : processFaceImage outcome = .error m) :
    (handleProcessImage st outcome).error.isSome = true
    ∧ (handleProcessImage st outcome).processedImage = none
    ∧ (handleProcessImage st outcome).isProcessing = false
    ∧ (handleProcessImage st outcome).originalImage = some orig := by
  simp [handleProcessImage, h1, h2, h3]

/-- Witness for C9: a response with no candidates makes `processFaceImage`
throw, and the session keeps its pre-call state. -/
theorem c9_failure_preserves_session_witness :
    (handleProcessImage sampleAppState (.ok ⟨[]⟩)).error.isSome = true
    ∧ (handleProcessImage sampleAppState (.ok ⟨[]⟩)).processedImage = none
    ∧ (handleProcessImage sampleAppState (.ok ⟨[]⟩)).isProcessing = false
    ∧ (handleProcessImage sampleAppState (.ok ⟨[]⟩)).originalImage
        = some "data:image/png;base64,AAAA".data :=
  c9_failure_preserves_session sampleAppState "data:image/png;base64,AAAA".data
    (.ok ⟨[]⟩) "No image data returned from the model.".data rfl rfl rfl

/-- Counterexample to C7 as stated: ids are clock strings
(`Date.now().toString()`), so if the store already holds a spot whose id equals
the clock string observed by the add (two clicks in the same millisecond), the
subsequent `removeSpot` of the new id also deletes the old spot.  The added
spot satisfies `radius > 0` and `0 ≤ x, y ≤ 100`, yet the store is not restored:
the original spot is gone. -/
theorem c7_add_remove_counterexample :
    (0 : ℚ) < 3 ∧ (0 : ℚ) ≤ 10 ∧ (10 : ℚ) ≤ 100
    ∧ spotAtTick5 ∈ [spotAtTick5]
    ∧ spotAtTick5 ∉ removeSpot (addSpot [spotAtTick5] 5 10 10 3) (jsNumToString 5) := by
  decide

/-- C7 (amended): provided the clock string assigned to the new spot is not
already an id in the store, `addSpot` followed by `removeSpot` of the new id
restores the store exactly (hence as an order-independent set). -/
theorem c7_add_remove_roundtrip (spots : List Spot) (now : Nat) (x y r : ℚ)
    (_hr : 0 < r) (_hx0 : 0 ≤ x) (_hx1 : x ≤ 100) (_hy0 : 0 ≤ y) (_hy1 : y ≤ 100)
    (hfresh : jsNumToString now ∉ spotIds spots) :
    removeSpot (addSpot spots now x y r) (jsNumToString now) = spots := by
  unfold removeSpot addSpot
  rw [List.filter_append]
  have h1 : List.filter (fun s : Spot => s.id != jsNumToString now)
      [⟨jsNumToString now, x, y, r⟩] = [] := by
    simp
  have h2 : List.filter (fun s : Spot => s.id != jsNumToString now) spots = spots := by
    rw [List.filter_eq_self]
    intro s hs
    rw [bne_iff_ne]
    intro heq
    exact hfresh (heq ▸ List.mem_map_of_mem Spot.id hs)
  rw [h1, h2, List.append_nil]

/-- Witness for C7 (amended): adding at tick 7 over a store whose only id is
the tick-5 string, then removing the new id, restores the store. -/
theorem c7_add_remove_roundtrip_witness :
    removeSpot (addSpot [spotAtTick5] 7 10 20 3) (jsNumToString 7) = [spotAtTick5] :=
  c7_add_remove_roundtrip [spotAtTick5] 7 10 20 3 (by norm_num) (by norm_num)
    (by norm_num) (by norm_num) (by norm_num) (by decide)

/-- Counterexample to C8 as stated: two adds observing the same clock value
(two clicks within one millisecond of `Date.now()`) yield two stored spots with
the same id, so ids are not pairwise distinct after every add/remove
sequence. -/
theorem c8_duplicate_id_counterexample :
    ¬ (spotIds (applySpotOps [] [.add 5 1 1 1, .add 5 2 2 1])).Nodup := by
  decide

/-- C8 (amended): starting from a store with pairwise-distinct ids, any
sequence of add/remove operations in which no add reuses a clock string still
present in the store keeps all stored ids pairwise distinct. -/
theorem c8_fresh_run_nodup (spots : List Spot) (ops : List SpotOp)
    (h1 : (spotIds spots).Nodup) (h2 : freshRun spots ops = true) :
    (spotIds (applySpotOps spots ops)).Nodup := by
  induction ops generalizing spots with
  | nil => simpa [applySpotOps] using h1
  | cons op rest ih =>
    simp only [freshRun, Bool.and_eq_true] at h2
    obtain ⟨hguard, hrest⟩ := h2
    have step : (spotIds (applySpotOp spots op)).Nodup := by
      cases op with
      | add now x y r =>
        have hni : jsNumToString now ∉ spotIds spots := by
          simpa using hguard
        simp only [spotIds] at h1 hni
        simp only [applySpotOp, addSpot, spotIds, List.map_append, List.map_cons,
          List.map_nil]
        refine List.Nodup.append h1 (List.nodup_singleton _) ?_
        intro a ha hb
        rw [List.mem_singleton] at hb
        subst hb
        exact hni ha
      | remove id =>
        have hsub : List.Sublist (spotIds (removeSpot spots id)) (spotIds spots) :=
          (List.filter_sublist spots).map Spot.id
        exact h1.sublist hsub
    have heq : applySpotOps spots (op :: rest) = applySpotOps (applySpotOp spots op) rest := rfl
    rw [heq]
    exact ih (applySpotOp spots op) step hrest

/-- Witness for C8 (amended): two adds at distinct ticks form a fresh run and
leave distinct ids. -/
theorem c8_fresh_run_nodup_witness :
    freshRun [] [.add 5 1 1 1, .add 6 2 2 1] = true
    ∧ (spotIds (applySpotOps [] [.add 5 1 1 1, .add 6 2 2 1])).Nodup :=
  ⟨by decide, c8_fresh_run_nodup [] [.add 5 1 1 1, .add 6 2 2 1] (by decide) (by decide)⟩

/-- Auxiliary for C3: one spot's preview ellipse, mapped from object-bounding-box
units into the pixel space of a W×H raster with `aspectRatio = W/H`, contains a
pixel exactly when the export disc of the same spot does. -/
theorem inPreviewEllipse_eq_inExportSpot (s : Spot) (W H px py : ℚ)
    (hW : 0 < W) (hH : 0 < H) (hr : 0 < s.radius) :
    inPreviewEllipse s (W / H) (px / W) (py / H) = inExportSpot s W H px py := by
  unfold inPreviewEllipse inExportSpot
  rw [decide_eq_decide]
  have hW' : W ≠ 0 := ne_of_gt hW
  have hH' : H ≠ 0 := ne_of_gt hH
  have hr' : s.radius ≠ 0 := ne_of_gt hr
  have hR : (0 : ℚ) < (s.radius / 100 * W) ^ 2 := by positivity
  have key : ((px / W - s.x / 100) / (s.radius / 100)) ^ 2
      + ((py / H - s.y / 100) / (s.radius / 100 * (W / H))) ^ 2
      = ((px - s.x / 100 * W) ^ 2 + (py - s.y / 100 * H) ^ 2)
        / (s.radius / 100 * W) ^ 2 := by
    field_simp
    ring
  rw [key, div_le_one hR]

/-- Auxiliary for C3: the union-of-ellipses preview mask and the
union-of-discs export clip agree on every pixel. -/
theorem previewSpotRegion_eq_exportSpotRegion (spots : List Spot)
    (W H px py : ℚ) (hW : 0 < W) (hH : 0 < H)
    (hr : ∀ s ∈ spots, 0 < s.radius) :
    previewSpotRegion spots (W / H) (px / W) (py / H)
      = exportSpotRegion spots W H px py := by
  unfold previewSpotRegion exportSpotRegion
  induction spots with
  | nil => rfl
  | cons s rest ih =>
    simp only [List.any_cons]
    rw [inPreviewEllipse_eq_inExportSpot s W H px py hW hH
        (hr s (List.mem_cons_self s rest)),
      ih (fun t ht => hr t (List.mem_cons_of_mem s ht))]

/-- C3: for a non-empty spot set on a W×H image with `aspectRatio = W/H`, the
export clip (pixel discs of radius `(radius/100)*W`) and the preview clip mask
(object-bounding-box ellipses with `ry = rx * aspectRatio`) denote the same
pixel region; and the single spot (50, 50, 10) on a square image clips exactly
to the disc centred at the image midpoint with radius one tenth of the width. -/
theorem c3_preview_export_geometry (spots : List Spot) (W H px py : ℚ)
    (_hne : spots ≠ []) (hW : 0 < W) (hH : 0 < H)
    (hr : ∀ s ∈ spots, 0 < s.radius) :
    previewSpotRegion spots (W / H) (px / W) (py / H)
      = exportSpotRegion spots W H px py
    ∧ exportSpotRegion [scenarioSpot] W W px py
      = decide ((px - W / 2) ^ 2 + (py - W / 2) ^ 2 ≤ (W / 10) ^ 2) := by
  refine ⟨previewSpotRegion_eq_exportSpotRegion spots W H px py hW hH hr, ?_⟩
  unfold exportSpotRegion
  simp only [List.any_cons, List.any_nil, Bool.or_false]
  unfold inExportSpot scenarioSpot
  have e1 : px - 50 / 100 * W = px - W / 2 := by ring
  have e2 : py - 50 / 100 * W = py - W / 2 := by ring
  have e3 : ((10 : ℚ) / 100 * W) ^ 2 = (W / 10) ^ 2 := by ring
  rw [decide_eq_decide, e1, e2, e3]

/-- Witness for C3: one spot (50, 50, 10) on a 200×100 image (aspect ratio 2),
checked at pixel (30, 40); and the square-image scenario on a 200×200 image. -/
theorem c3_preview_export_geometry_witness :
    (previewSpotRegion [scenarioSpot] (200 / 100) (30 / 200) (40 / 100)
      = exportSpotRegion [scenarioSpot] 200 100 30 40)
    ∧ exportSpotRegion [scenarioSpot] 200 200 30 40
      = decide (((30 : ℚ) - 200 / 2) ^ 2 + ((40 : ℚ) - 200 / 2) ^ 2
          ≤ ((200 : ℚ) / 10) ^ 2) := by
  refine ⟨(c3_preview_export_geometry [scenarioSpot] 200 100 30 40 (by decide)
      (by norm_num) (by norm_num) (by decide)).1, ?_⟩
  exact (c3_preview_export_geometry [scenarioSpot] 200 200 30 40 (by decide)
      (by norm_num) (by norm_num) (by decide)).2

/-- Auxiliary: `indexOf` finds the first occurrence of `c` after a prefix
that does not contain it. -/
theorem jsIndexOf_append_cons (l₁ l₂ : JSString) (c : Char) (h : c ∉ l₁) :
    jsIndexOf (l₁ ++ c :: l₂) c = (l₁.length : Int) := by
  induction l₁ with
  | nil => simp [jsIndexOf]
  | cons a rest ih =>
    have hac : (a == c) = false := by
      rw [beq_eq_false_iff_ne]
      intro e
      exact h (e ▸ List.mem_cons_self a rest)
    have hcr : c ∉ rest := fun m => h (List.mem_cons_of_mem a m)
    rw [List.cons_append, jsIndexOf.eq_def]
    simp only [hac, Bool.false_eq_true, if_false]
    rw [ih hcr]
    have hnn : ¬ ((rest.length : Int) < 0) := by omega
    rw [if_neg hnn]
    simp [List.length_cons]

/-- Auxiliary: splitting a string that does not contain the separator. -/
theorem jsSplit_no_sep (l : JSString) (sep : Char) (h : sep ∉ l) :
    jsSplit l sep = [l] := by
  induction l with
  | nil => rfl
  | cons a rest ih =>
    have ha : (a == sep) = false := by
      rw [beq_eq_false_iff_ne]
      intro e
      exact h (e ▸ List.mem_cons_self a rest)
    have hr : sep ∉ rest := fun m => h (List.mem_cons_of_mem a m)
    simp [jsSplit, ha, ih hr]

/-- Auxiliary: splitting at the first separator after a separator-free
prefix. -/
theorem jsSplit_append_cons (l₁ l₂ : JSString) (sep : Char) (h : sep ∉ l₁) :
    jsSplit (l₁ ++ sep :: l₂) sep = l₁ :: jsSplit l₂ sep := by
  induction l₁ with
  | nil => simp [jsSplit]
  | cons a rest ih =>
    have ha : (a == sep) = false := by
      rw [beq_eq_false_iff_ne]
      intro e
      exact h (e ▸ List.mem_cons_self a rest)
    have hr : sep ∉ rest := fun m => h (List.mem_cons_of_mem a m)
    simp [jsSplit, ha, ih hr]

/-- Auxiliary: `getMimeType` recovers the mime type from a data URL built
around it, provided the mime type contains no `:` and no `;`. -/
theorem getMimeType_mkDataUrl (M D : JSString) (_hM1 : ':' ∉ M) (hM2 : ';' ∉ M) :
    getMimeType (mkDataUrl M D) = M := by
  have hd5 : ("data:".data).length = 5 := rfl
  have hlen : (mkDataUrl M D).length = 13 + (M.length + D.length) := by
    simp only [mkDataUrl]
    simp [List.length_append]
    omega
  have h1 : jsIndexOf (mkDataUrl M D) ':' = 4 := by
    have e : mkDataUrl M D = "data".data ++ ':' :: (M ++ (";base64,".data ++ D)) := by
      simp [mkDataUrl]
    rw [e, jsIndexOf_append_cons _ _ _ (by decide)]
    rfl
  have h2 : jsIndexOf (mkDataUrl M D) ';'
      = ((("data:".data ++ M).length : Nat) : Int) := by
    have e : mkDataUrl M D
        = ("data:".data ++ M) ++ ';' :: ("base64,".data ++ D) := by
      simp [mkDataUrl]
    rw [e, jsIndexOf_append_cons]
    intro hmem
    rcases List.mem_append.mp hmem with hm | hm
    · revert hm; decide
    · exact hM2 hm
  unfold getMimeType jsSubstring
  rw [h1, h2]
  have hpm : (("data:".data ++ M).length) = 5 + M.length := by
    simp [List.length_append]
    omega
  have ha' : (min (max ((4 : Int) + 1) 0) ((mkDataUrl M D).length : Int)).toNat
      = 5 := by omega
  have hb' : (min (max ((((("data:".data ++ M).length : Nat)) : Int)) 0)
      ((mkDataUrl M D).length : Int)).toNat = 5 + M.length := by omega
  rw [ha', hb']
  have hmin : min 5 (5 + M.length) = 5 := by omega
  have hmax : max 5 (5 + M.length) = 5 + M.length := by omega
  simp only [hmin, hmax]
  have hpre : mkDataUrl M D = ("data:".data ++ M) ++ (";base64,".data ++ D) := by
    simp [mkDataUrl]
  rw [hpre]
  have htake : 5 + M.length = ("data:".data ++ M).length := by omega
  rw [htake, List.take_left]
  have hdrop : ("data:".data ++ M).drop 5 = M := by
    have : (5 : Nat) = ("data:".data).length := rfl
    rw [this, List.drop_left]
  exact hdrop

/-- Auxiliary: `getBase64Data` recovers the payload from a data URL built
around it, provided neither the mime type nor the payload contains a comma. -/
theorem getBase64Data_mkDataUrl (M D : JSString) (hM3 : ',' ∉ M)
    (hD : ∀ c ∈ D, isBase64Char c = true) :
    getBase64Data (mkDataUrl M D) = some D := by
  have hDc : ',' ∉ D := fun hmem => absurd (hD ',' hmem) (by decide)
  have e : mkDataUrl M D = ("data:".data ++ M ++ ";base64".data) ++ ',' :: D := by
    simp [mkDataUrl]
  have hp : ',' ∉ ("data:".data ++ M ++ ";base64".data) := by
    intro hmem
    rcases List.mem_append.mp hmem with hm | hm
    · rcases List.mem_append.mp hm with hm' | hm'
      · revert hm'; decide
      · exact hM3 hm'
    · revert hm; decide
  unfold getBase64Data
  rw [e, jsSplit_append_cons _ _ _ hp, jsSplit_no_sep D ',' hDc]
  rfl

/-- Counterexample to C10 as stated: the mime type `"a,b"` contains neither `:`
nor `;`, and `"QQ"` is a base64 payload, yet `getBase64Data` does not recover
the payload — `split(',')[1]` cuts at the comma inside the mime type. -/
theorem c10_comma_mime_counterexample :
    (':' ∉ "a,b".data) ∧ (';' ∉ "a,b".data)
    ∧ (∀ c ∈ "QQ".data, isBase64Char c = true)
    ∧ getBase64Data (mkDataUrl "a,b".data "QQ".data) ≠ some "QQ".data := by
  decide

/-- C10 (amended): for every mime type containing no `:`, `;` and no `,`, and
every base64 payload, `getMimeType` and `getBase64Data` recover both components
of `"data:" ++ M ++ ";base64," ++ D`; in particular the data URL that
`handleProcessImage` builds with `mkDataUrl` carries the original's mime type
unchanged. -/
theorem c10_dataUrl_roundtrip (M D : JSString) (hM1 : ':' ∉ M) (hM2 : ';' ∉ M)
    (hM3 : ',' ∉ M) (hD : ∀ c ∈ D, isBase64Char c = true) :
    getMimeType (mkDataUrl M D) = M ∧ getBase64Data (mkDataUrl M D) = some D :=
  ⟨getMimeType_mkDataUrl M D hM1 hM2, getBase64Data_mkDataUrl M D hM3 hD⟩

/-- Witness for C10 (amended) at the mime type `image/png` and payload
`QQ==`. -/
theorem c10_dataUrl_roundtrip_witness :
    getMimeType (mkDataUrl "image/png".data "QQ==".data) = "image/png".data
    ∧ getBase64Data (mkDataUrl "image/png".data "QQ==".data)
        = some "QQ==".data :=
  c10_dataUrl_roundtrip "image/png".data "QQ==".data (by decide) (by decide)
    (by decide) (by decide)

end DermaFix
